import Mathlib

/-!
Shallow embedding of the version-ledger consistency engine of vcpkg-tool:
the consistency checker (`src/vcpkg/commands.civerifyversions.cpp`,
`verify_version_in_db`) and the ledger updater
(`src/vcpkg/commands.add-version.cpp`, `update_version_db_file`,
`update_baseline_version`, `write_versions_file`, `write_baseline_file`),
together with theorems settling the specification claims.

File I/O, console printing and process exit are modelled explicitly:
written file contents are returned as data, `Checks::exit_fail` becomes a
`fatal_exit` flag, and the filesystem for the atomic-write discipline is a
map from path to (parsed) content.
-/

namespace Vcpkg

/-- Version scheme of a port version (`Versions::Scheme`); a closed
enumeration, so the `default: Checks::unreachable` arms of the C++ switches
are unrepresentable here. -/
inductive Scheme where
  | relaxed
  | semver
  | date
  | string
deriving DecidableEq, Repr

/-- Modelled from the spec: `VersionT` (declared in `vcpkg/versions.h`,
whose implementation is not under `src/`): a version is a text plus a
non-negative port revision, and equality is structural on both fields
(spec section 3: "Equality is structural (text + revision)"). -/
structure VersionT where
  text : String
  port_version : Nat
deriving DecidableEq, Repr

/-- `SchemedVersion`: the scheme-tagged version a manifest declares and a
ledger entry records. -/
structure SchemedVersion where
  scheme : Scheme
  versiont : VersionT
deriving DecidableEq, Repr

/-- `VersionGitTree = std::pair<SchemedVersion, std::string>`: one ledger
entry, `(schemed version, git tree object id)`. -/
abbrev VersionGitTree := SchemedVersion × String

/-- `get_scheme_name` from commands.civerifyversions.cpp: the JSON field
name of a scheme. -/
def get_scheme_name : Scheme → String
  | .relaxed => "version"
  | .semver => "version-semver"
  | .string => "version-string"
  | .date => "version-date"

/-- The error outcomes of `verify_version_in_db`, one constructor per
`expected_right_tag` return site, in source order. -/
inductive VerifyError where
  | parseVersionsError
  | emptyVersionsFile
  | contentLoadParseError (recorded_version : VersionT) (treeish : String)
  | contentVersionMismatch (recorded_version declared_version : VersionT) (sha : String)
  | contentMissingManifest (recorded_version : VersionT) (sha : String)
  | localPortParseError
  | orderingError (local_version : VersionT)
  | unregisteredVersion (local_version : VersionT)
  | schemeConflict (version : VersionT) (file_scheme local_scheme : String)
  | staleHistory (file_sha local_sha : String)
  | missingBaseline
  | staleBaseline (baseline_version top_version : VersionT)
deriving DecidableEq, Repr

/-- `baseline.find(port_name)` on the `std::map` baseline, modelled as an
association list lookup. -/
def lookupBaseline : List (String × VersionT) → String → Option VersionT
  | [], _ => none
  | (k, v) :: rest, key => if k = key then some v else lookupBaseline rest key

/-- The `std::find_if` over ledger entries comparing `entry.first.versiont`
to the local version, reduced to its boolean outcome. -/
def findVersionInLedger (v : VersionT) : List VersionGitTree → Bool
  | [] => false
  | entry :: rest => decide (entry.1.versiont = v) || findVersionInLedger v rest

/-- The inner `for (const std::string& control_file : {"CONTROL", "vcpkg.json"})`
loop of the git-tree verification: try each candidate filename; a filename
that `git show` does not resolve is skipped; the first one that resolves is
parsed and its version compared against the recorded one. Returns
`.ok true` when some filename verified the entry (`version_ok`),
`.ok false` when no filename resolved. `git_show` models
`paths.git_show` and `try_load_port_text` models
`Paragraphs::try_load_port_text` followed by `to_schemed_version`. -/
def check_entry_files (git_show : String → Option String)
    (try_load_port_text : String → String → Bool → Except String SchemedVersion)
    (entry : VersionGitTree) : List String → Except VerifyError Bool
  | [] => .ok false
  | control_file :: rest =>
    let treeish := entry.2 ++ ":" ++ control_file
    match git_show treeish with
    | none => check_entry_files git_show try_load_port_text entry rest
    | some file =>
      match try_load_port_text file treeish (decide (control_file = "vcpkg.json")) with
      | .error _ => .error (.contentLoadParseError entry.1.versiont treeish)
      | .ok git_tree_version =>
        if entry.1.versiont ≠ git_tree_version.versiont then
          .error (.contentVersionMismatch entry.1.versiont git_tree_version.versiont entry.2)
        else
          .ok true

/-- One iteration of the `verify_git_trees` loop body for a single ledger
entry: if no candidate filename resolved, the checked-out object has no
manifest. -/
def verify_entry_git_tree (git_show : String → Option String)
    (try_load_port_text : String → String → Bool → Except String SchemedVersion)
    (entry : VersionGitTree) : Except VerifyError Unit :=
  match check_entry_files git_show try_load_port_text entry ["CONTROL", "vcpkg.json"] with
  | .error e => .error e
  | .ok true => .ok ()
  | .ok false => .error (.contentMissingManifest entry.1.versiont entry.2)

/-- The `for (auto&& version_entry : versions)` loop of the deep
verification: short-circuits on the first failing entry. -/
def verify_git_trees_loop (git_show : String → Option String)
    (try_load_port_text : String → String → Bool → Except String SchemedVersion) :
    List VersionGitTree → Except VerifyError Unit
  | [] => .ok ()
  | entry :: rest =>
    match verify_entry_git_tree git_show try_load_port_text entry with
    | .error e => .error e
    | .ok () => verify_git_trees_loop git_show try_load_port_text rest

/-- `verify_version_in_db` from commands.civerifyversions.cpp. External
collaborators are passed as data: `maybe_versions` is the result of
`get_builtin_versions`, `maybe_local_port` the result of
`Paragraphs::try_load_port` followed by `to_schemed_version`, `git_show`
and `try_load_port_text` serve the deep git-tree verification. On success
the formatted "OK" line is modelled as the triple
`(top git tree, port name, top version)`. -/
def verify_version_in_db (baseline : List (String × VersionT))
    (port_name : String)
    (maybe_versions : Except String (List VersionGitTree))
    (maybe_local_port : Except String SchemedVersion)
    (local_git_tree : String)
    (verify_git_trees : Bool)
    (git_show : String → Option String)
    (try_load_port_text : String → String → Bool → Except String SchemedVersion) :
    Except VerifyError (String × String × VersionT) :=
  match maybe_versions with
  | .error _ => .error .parseVersionsError
  | .ok versions =>
    match versions with
    | [] => .error .emptyVersionsFile
    | top_entry :: rest =>
      match (if verify_git_trees then
               verify_git_trees_loop git_show try_load_port_text (top_entry :: rest)
             else .ok ()) with
      | .error e => .error e
      | .ok () =>
        match maybe_local_port with
        | .error _ => .error .localPortParseError
        | .ok local_port_version =>
          if top_entry.1.versiont ≠ local_port_version.versiont then
            if findVersionInLedger local_port_version.versiont (top_entry :: rest) then
              .error (.orderingError local_port_version.versiont)
            else
              .error (.unregisteredVersion local_port_version.versiont)
          else if top_entry.1.scheme ≠ local_port_version.scheme then
            .error (.schemeConflict top_entry.1.versiont
              (get_scheme_name top_entry.1.scheme) (get_scheme_name local_port_version.scheme))
          else if local_git_tree ≠ top_entry.2 then
            .error (.staleHistory top_entry.2 local_git_tree)
          else
            match lookupBaseline baseline port_name with
            | none => .error .missingBaseline
            | some baseline_version =>
              if baseline_version ≠ top_entry.1.versiont then
                .error (.staleBaseline baseline_version top_entry.1.versiont)
              else
                .ok (top_entry.2, port_name, top_entry.1.versiont)

/-! ## Serialization and atomic writes (commands.add-version.cpp) -/

/-- Minimal JSON value model for `Json::Object` / `Json::Array` /
`Json::Value`; objects keep their fields in insertion order. The textual
rendering `Json::stringify` lives outside `src/`, so a written file is
modelled by the JSON value it would render. -/
inductive JsonValue where
  | str (s : String)
  | int (n : Int)
  | obj (fields : List (String × JsonValue))
  | arr (elems : List JsonValue)

/-- `insert_version_to_json_object`: appends the version field (under the
given field name) and the `port-version` field to an object. -/
def insert_version_to_json_object (obj : List (String × JsonValue)) (version : VersionT)
    (version_field : String) : List (String × JsonValue) :=
  obj ++ [(version_field, .str version.text), ("port-version", .int version.port_version)]

/-- `insert_schemed_version_to_json_object`: chooses the field name by
scheme (`version` / `version-semver` / `version-date` / `version-string`). -/
def insert_schemed_version_to_json_object (obj : List (String × JsonValue))
    (version : SchemedVersion) : List (String × JsonValue) :=
  match version.scheme with
  | .relaxed => insert_version_to_json_object obj version.versiont "version"
  | .semver => insert_version_to_json_object obj version.versiont "version-semver"
  | .date => insert_version_to_json_object obj version.versiont "version-date"
  | .string => insert_version_to_json_object obj version.versiont "version-string"

/-- `serialize_versions`: `{ "versions": [ { "git-tree": ..., <scheme-field>: ...,
"port-version": ... }, ... ] }`, entries in ledger (newest-first) order. -/
def serialize_versions (versions : List VersionGitTree) : JsonValue :=
  .obj [("versions", .arr (versions.map (fun version =>
    .obj (insert_schemed_version_to_json_object [("git-tree", .str version.2)] version.1))))]

/-- `serialize_baseline`: `{ "default": { <port>: { "baseline": ...,
"port-version": ... }, ... } }`. -/
def serialize_baseline (baseline : List (String × VersionT)) : JsonValue :=
  .obj [("default", .obj (baseline.map (fun kv_pair =>
    (kv_pair.1, .obj (insert_version_to_json_object [] kv_pair.2 "baseline")))))]

/-- The filesystem as seen through `Files::Filesystem`: a map from path to
the (parsed) content of the file at that path, `none` when absent. -/
abbrev FileSystem := String → Option JsonValue

/-- `fs.write_contents(path, contents)`. -/
def fsWriteContents (fs : FileSystem) (path : String) (contents : JsonValue) : FileSystem :=
  fun q => if q = path then some contents else fs q

/-- `fs.rename(old_path, new_path)`: afterwards `new_path` holds what
`old_path` held and `old_path` is gone. -/
def fsRename (fs : FileSystem) (old_path new_path : String) : FileSystem :=
  fun q => if q = old_path then none else if q = new_path then fs old_path else fs q

/-- `new_path = output_path; new_path += ".tmp"`: the sibling temporary
path used by both writers. -/
def tmp_path (output_path : String) : String := output_path ++ ".tmp"

/-- The state of `write_versions_file` after `fs.write_contents` on the
temporary path but before `fs.rename`. -/
def write_versions_file_tmp (fs : FileSystem) (versions : List VersionGitTree)
    (output_path : String) : FileSystem :=
  fsWriteContents fs (tmp_path output_path) (serialize_versions versions)

/-- `write_versions_file`: write the serialized ledger to the sibling
temporary path, then rename it over the target. -/
def write_versions_file (fs : FileSystem) (versions : List VersionGitTree)
    (output_path : String) : FileSystem :=
  fsRename (write_versions_file_tmp fs versions output_path) (tmp_path output_path) output_path

/-- The state of `write_baseline_file` after `fs.write_contents` on the
temporary path but before `fs.rename`. -/
def write_baseline_file_tmp (fs : FileSystem) (baseline_map : List (String × VersionT))
    (output_path : String) : FileSystem :=
  fsWriteContents fs (tmp_path output_path) (serialize_baseline baseline_map)

/-- `write_baseline_file`: write the serialized baseline to the sibling
temporary path, then rename it over the target. -/
def write_baseline_file (fs : FileSystem) (baseline_map : List (String × VersionT))
    (output_path : String) : FileSystem :=
  fsRename (write_baseline_file_tmp fs baseline_map output_path) (tmp_path output_path) output_path

/-! ## Baseline updater (`update_baseline_version`) -/

/-- In-place assignment `baseline_version = version` through the map
iterator, on the association-list model of the `std::map`. -/
def updateAssocVersion : List (String × VersionT) → String → VersionT → List (String × VersionT)
  | [], _, _ => []
  | (k, v) :: rest, key, new_version =>
    if k = key then (k, new_version) :: rest
    else (k, v) :: updateAssocVersion rest key new_version

/-- Result of `update_baseline_version`: the resulting baseline map and
whether `write_baseline_file` was invoked. -/
structure BaselineOutcome where
  baseline_map : List (String × VersionT)
  wrote_file : Bool
deriving DecidableEq, Repr

/-- `update_baseline_version` from commands.add-version.cpp: no-op (apart
from an informational message) when the baseline already maps the port to
an equal version; otherwise assign or emplace the mapping and write the
baseline file. -/
def update_baseline_version (port_name : String) (version : VersionT)
    (baseline_map : List (String × VersionT)) : BaselineOutcome :=
  match lookupBaseline baseline_map port_name with
  | some baseline_version =>
    if baseline_version = version then
      { baseline_map := baseline_map, wrote_file := false }
    else
      { baseline_map := updateAssocVersion baseline_map port_name version, wrote_file := true }
  | none =>
    { baseline_map := baseline_map ++ [(port_name, version)], wrote_file := true }

/-! ## Ledger updater (`update_version_db_file`) -/

/-- The `std::find_if` over ledger entries comparing `entry.second` (the
git tree) to the current git tree: first match. -/
def findSameSha : List VersionGitTree → String → Option VersionGitTree
  | [], _ => none
  | entry :: rest, git_tree =>
    if entry.2 = git_tree then some entry else findSameSha rest git_tree

/-- Boolean outcome of the second `std::find_if`, comparing
`entry.first.versiont` to the desired version. -/
def hasSameVersion : List VersionGitTree → VersionT → Bool
  | [], _ => false
  | entry :: rest, v => decide (entry.1.versiont = v) || hasSameVersion rest v

/-- The in-place `it->first = version; it->second = git_tree` on the first
entry whose version equals the desired one; every other entry and every
position is untouched. -/
def replaceFirstVersion (version : SchemedVersion) (git_tree : String) :
    List VersionGitTree → List VersionGitTree
  | [] => []
  | entry :: rest =>
    if entry.1.versiont = version.versiont then (version, git_tree) :: rest
    else entry :: replaceFirstVersion version git_tree rest

/-- The observable result of `update_version_db_file`, one constructor per
exit path of the function, in source order. -/
inductive UpdateResult where
  | createdNewFile
  | alreadyUpToDate
  | uncommittedChange (found_version : VersionT)
  | missingVersionBump
  | wroteUpdatedFile
  | versionsParseError
deriving DecidableEq, Repr

/-- Effects of one `update_version_db_file` call: the result, the ledger
contents passed to `write_versions_file` (`none` when no write happened),
and whether `Checks::exit_fail` was reached. -/
structure UpdateOutcome where
  result : UpdateResult
  written_ledger : Option (List VersionGitTree)
  fatal_exit : Bool
deriving DecidableEq, Repr

/-- `update_version_db_file` from commands.add-version.cpp. `file_exists`
models `fs.exists(version_db_file_path)` and `maybe_versions` the result
of `get_builtin_versions` (only consulted when the file exists). -/
def update_version_db_file (file_exists : Bool)
    (maybe_versions : Except String (List VersionGitTree))
    (version : SchemedVersion) (git_tree : String)
    (overwrite_version : Bool) (keep_going : Bool) : UpdateOutcome :=
  if !file_exists then
    { result := .createdNewFile, written_ledger := some [(version, git_tree)],
      fatal_exit := false }
  else
    match maybe_versions with
    | .error _ =>
      { result := .versionsParseError, written_ledger := none, fatal_exit := true }
    | .ok versions =>
      match findSameSha versions git_tree with
      | some found_same_sha =>
        if found_same_sha.1.versiont = version.versiont then
          { result := .alreadyUpToDate, written_ledger := none, fatal_exit := false }
        else
          { result := .uncommittedChange found_same_sha.1.versiont, written_ledger := none,
            fatal_exit := !keep_going }
      | none =>
        if hasSameVersion versions version.versiont then
          if !overwrite_version then
            { result := .missingVersionBump, written_ledger := none, fatal_exit := !keep_going }
          else
            { result := .wroteUpdatedFile,
              written_ledger := some (replaceFirstVersion version git_tree versions),
              fatal_exit := false }
        else
          { result := .wroteUpdatedFile,
            written_ledger := some ((version, git_tree) :: versions), fatal_exit := false }

/-! ## Per-package updater run -/

/-- The persistent state touched by one updater run: the (parsed) ledger
file content (`none` when the file is absent) and the baseline map. -/
structure RegistryState where
  ledger : Option (List VersionGitTree)
  baseline : List (String × VersionT)
deriving DecidableEq, Repr

/-- Modelled from the spec: the per-package driver of the Updater, which
is not under `src/` (only `update_version_db_file` and
`update_baseline_version` are). Per spec section 4.6: run
`update_version_db_file` (steps 1-5); on an uncommitted-change or
missing-version-bump failure the package is abandoned (fatally, or
skipped under `keep_going`) before the baseline step; otherwise step 6
upserts the baseline with the desired version. -/
def run_updater (port_name : String) (version : SchemedVersion) (git_tree : String)
    (overwrite_version : Bool) (keep_going : Bool) (st : RegistryState) :
    RegistryState × UpdateResult :=
  let out := update_version_db_file st.ledger.isSome (.ok (st.ledger.getD []))
    version git_tree overwrite_version keep_going
  let st1 : RegistryState :=
    match out.written_ledger with
    | some l => { st with ledger := some l }
    | none => st
  match out.result with
  | .uncommittedChange v => (st1, .uncommittedChange v)
  | .missingVersionBump => (st1, .missingVersionBump)
  | .versionsParseError => (st1, .versionsParseError)
  | r =>
    let b := update_baseline_version port_name version.versiont st1.baseline
    ({ st1 with baseline := b.baseline_map }, r)

/-- A registry state on which the updater is a guaranteed no-op for the
given desired version and git tree: the first ledger entry carrying this
git tree records this very version, and the baseline already endorses it.
Proof-infrastructure predicate used to establish idempotence. -/
def NoOpReady (port_name : String) (version : SchemedVersion) (git_tree : String)
    (st : RegistryState) : Prop :=
  (∃ l found, st.ledger = some l ∧ findSameSha l git_tree = some found
    ∧ found.1.versiont = version.versiont)
  ∧ lookupBaseline st.baseline port_name = some version.versiont

/-! ## Helper lemmas -/

theorem lookupBaseline_updateAssocVersion (m : List (String × VersionT)) (p : String)
    (v bv : VersionT) (h : lookupBaseline m p = some bv) :
    lookupBaseline (updateAssocVersion m p v) p = some v := by
  induction m with
  | nil => simp [lookupBaseline] at h
  | cons kv rest ih =>
    obtain ⟨k, w⟩ := kv
    by_cases hk : k = p
    · subst hk
      simp [lookupBaseline, updateAssocVersion]
    · simp [lookupBaseline, updateAssocVersion, hk] at h ⊢
      exact ih h

theorem lookupBaseline_append_of_none (m : List (String × VersionT)) (p : String) (v : VersionT)
    (h : lookupBaseline m p = none) :
    lookupBaseline (m ++ [(p, v)]) p = some v := by
  induction m with
  | nil => simp [lookupBaseline]
  | cons kv rest ih =>
    obtain ⟨k, w⟩ := kv
    by_cases hk : k = p
    · simp [lookupBaseline, hk] at h
    · simp [lookupBaseline, hk] at h ⊢
      exact ih h

theorem lookupBaseline_after_update (p : String) (v : VersionT)
    (m : List (String × VersionT)) :
    lookupBaseline (update_baseline_version p v m).baseline_map p = some v := by
  unfold update_baseline_version
  cases h : lookupBaseline m p with
  | none => simp [lookupBaseline_append_of_none m p v h]
  | some bv =>
    by_cases hv : bv = v
    · subst hv
      simp [h]
    · simp [hv, lookupBaseline_updateAssocVersion m p v bv h]

/-! ## Claim theorems -/

/-- C7: every save of a ledger or baseline writes the serialized content to
the sibling temporary path (which is distinct from the target) and then
renames it over the target; after the temporary file is written but before
the rename, the content at the real path is unchanged, and after the rename
the real path holds exactly the serialized content. -/
theorem save_atomic_via_tmp_and_rename (fs : FileSystem) (versions : List VersionGitTree)
    (baseline_map : List (String × VersionT)) (output_path : String) :
    tmp_path output_path ≠ output_path
    ∧ write_versions_file_tmp fs versions output_path output_path = fs output_path
    ∧ write_versions_file fs versions output_path output_path
        = some (serialize_versions versions)
    ∧ write_baseline_file_tmp fs baseline_map output_path output_path = fs output_path
    ∧ write_baseline_file fs baseline_map output_path output_path
        = some (serialize_baseline baseline_map) := by
  have hne : tmp_path output_path ≠ output_path := by
    intro h
    have hlen := congrArg String.length h
    rw [tmp_path, String.length_append] at hlen
    have h4 : (".tmp" : String).length = 4 := rfl
    rw [h4] at hlen
    omega
  refine ⟨hne, ?_, ?_, ?_, ?_⟩ <;>
    simp [write_versions_file, write_versions_file_tmp, write_baseline_file,
      write_baseline_file_tmp, fsWriteContents, fsRename, hne, Ne.symm hne]

/-- C8: a ledger file that exists but fails to parse makes
`update_version_db_file` exit fatally regardless of `keep_going`, while
every other failure lets the batch continue when `keep_going` is set. -/
theorem updater_parse_error_always_fatal (file_exists : Bool)
    (maybe_versions : Except String (List VersionGitTree)) (version : SchemedVersion)
    (git_tree : String) (overwrite_version keep_going : Bool) :
    ((file_exists = true ∧ ∃ e, maybe_versions = .error e) →
      update_version_db_file file_exists maybe_versions version git_tree
          overwrite_version keep_going
        = { result := .versionsParseError, written_ledger := none, fatal_exit := true })
    ∧ (keep_going = true →
      (update_version_db_file file_exists maybe_versions version git_tree
          overwrite_version keep_going).result ≠ .versionsParseError →
      (update_version_db_file file_exists maybe_versions version git_tree
          overwrite_version keep_going).fatal_exit = false) := by
  constructor
  · rintro ⟨hf, e, hm⟩
    subst hf
    subst hm
    simp [update_version_db_file]
  · intro hk _
    subst hk
    unfold update_version_db_file
    cases file_exists with
    | false => simp
    | true =>
      cases maybe_versions with
      | error e =>
        exfalso
        apply ‹(update_version_db_file true (.error e) version git_tree overwrite_version
          true).result ≠ .versionsParseError›
        simp [update_version_db_file]
      | ok versions =>
        simp only [Bool.not_true, Bool.false_eq_true, if_false]
        cases h : findSameSha versions git_tree with
        | some found =>
          simp only [h, Bool.not_true]
          split <;> rfl
        | none =>
          simp only [h, Bool.not_true]
          split
          · split <;> rfl
          · rfl

/-- C8 witness: a concrete parse failure is fatal even with `keep_going`,
and a concrete uncommitted-change failure is not fatal under `keep_going`. -/
theorem updater_parse_error_always_fatal_witness :
    (update_version_db_file true (.error "bad json") ⟨.relaxed, ⟨"1.0.0", 0⟩⟩ "aaaa"
        false true).fatal_exit = true
    ∧ (update_version_db_file true
        (.ok [((⟨.relaxed, ⟨"1.0.0", 0⟩⟩ : SchemedVersion), "aaaa")])
        ⟨.relaxed, ⟨"1.1.0", 0⟩⟩ "aaaa" false true).fatal_exit = false := by
  constructor
  · rw [(updater_parse_error_always_fatal true (.error "bad json") ⟨.relaxed, ⟨"1.0.0", 0⟩⟩
      "aaaa" false true).1 ⟨rfl, "bad json", rfl⟩]
  · exact (updater_parse_error_always_fatal true
      (.ok [((⟨.relaxed, ⟨"1.0.0", 0⟩⟩ : SchemedVersion), "aaaa")])
      ⟨.relaxed, ⟨"1.1.0", 0⟩⟩ "aaaa" false true).2 rfl (by decide)

/-- C9: the baseline upsert reports whether a write occurred: when the
baseline already maps the port to an equal version it writes nothing and
leaves the map untouched; otherwise it writes the baseline file and the
resulting map maps the port to the given version. -/
theorem baseline_upsert_write_iff_changed (port_name : String) (version : VersionT)
    (baseline_map : List (String × VersionT)) :
    (lookupBaseline baseline_map port_name = some version →
      update_baseline_version port_name version baseline_map
        = { baseline_map := baseline_map, wrote_file := false })
    ∧ (lookupBaseline baseline_map port_name ≠ some version →
      (update_baseline_version port_name version baseline_map).wrote_file = true
      ∧ lookupBaseline (update_baseline_version port_name version baseline_map).baseline_map
          port_name = some version) := by
  constructor
  · intro h
    unfold update_baseline_version
    rw [h]
    simp
  · intro h
    refine ⟨?_, lookupBaseline_after_update port_name version baseline_map⟩
    unfold update_baseline_version
    cases hl : lookupBaseline baseline_map port_name with
    | none => simp
    | some bv =>
      have hbv : bv ≠ version := by
        intro hc
        subst hc
        exact h hl
      simp [hbv]

/-- C9 witness: concrete equal-version no-op and concrete insert. -/
theorem baseline_upsert_write_iff_changed_witness :
    update_baseline_version "foo" ⟨"1.0.0", 0⟩ [("foo", ⟨"1.0.0", 0⟩)]
      = { baseline_map := [("foo", ⟨"1.0.0", 0⟩)], wrote_file := false }
    ∧ (update_baseline_version "bar" ⟨"2.0.0", 0⟩ [("foo", ⟨"1.0.0", 0⟩)]).wrote_file = true := by
  constructor
  · exact (baseline_upsert_write_iff_changed "foo" ⟨"1.0.0", 0⟩
      [("foo", ⟨"1.0.0", 0⟩)]).1 (by decide)
  · exact ((baseline_upsert_write_iff_changed "bar" ⟨"2.0.0", 0⟩
      [("foo", ⟨"1.0.0", 0⟩)]).2 (by decide)).1

/-- C1: when the top ledger entry's version differs from the local
manifest's version, the checker reports an ordering error if the local
version occurs in a non-first entry, an unregistered-version error if it
occurs in no entry, and in either case it never continues past step 4. -/
theorem checker_step4_ordering_or_unregistered
    (baseline : List (String × VersionT)) (port_name : String)
    (top_entry : VersionGitTree) (rest : List VersionGitTree)
    (local_port_version : SchemedVersion) (local_git_tree : String)
    (git_show : String → Option String)
    (tlpt : String → String → Bool → Except String SchemedVersion)
    (hne : top_entry.1.versiont ≠ local_port_version.versiont) :
    (findVersionInLedger local_port_version.versiont rest = true →
      verify_version_in_db baseline port_name (.ok (top_entry :: rest))
          (.ok local_port_version) local_git_tree false git_show tlpt
        = .error (.orderingError local_port_version.versiont))
    ∧ (findVersionInLedger local_port_version.versiont (top_entry :: rest) = false →
      verify_version_in_db baseline port_name (.ok (top_entry :: rest))
          (.ok local_port_version) local_git_tree false git_show tlpt
        = .error (.unregisteredVersion local_port_version.versiont))
    ∧ (verify_version_in_db baseline port_name (.ok (top_entry :: rest))
          (.ok local_port_version) local_git_tree false git_show tlpt
        = .error (.orderingError local_port_version.versiont)
      ∨ verify_version_in_db baseline port_name (.ok (top_entry :: rest))
          (.ok local_port_version) local_git_tree false git_show tlpt
        = .error (.unregisteredVersion local_port_version.versiont)) := by
  have hstep : verify_version_in_db baseline port_name (.ok (top_entry :: rest))
      (.ok local_port_version) local_git_tree false git_show tlpt
      = if findVersionInLedger local_port_version.versiont (top_entry :: rest)
        then .error (.orderingError local_port_version.versiont)
        else .error (.unregisteredVersion local_port_version.versiont) := by
    simp [verify_version_in_db, hne]
  refine ⟨?_, ?_, ?_⟩
  · intro hf
    have hall : findVersionInLedger local_port_version.versiont (top_entry :: rest) = true := by
      simp [findVersionInLedger, hf]
    rw [hstep]
    simp [hall]
  · intro hf
    rw [hstep]
    simp [hf]
  · rw [hstep]
    cases findVersionInLedger local_port_version.versiont (top_entry :: rest) <;> simp

/-- C1 witness: a local version present only in the second entry gives an
ordering error; a local version present nowhere gives an
unregistered-version error. -/
theorem checker_step4_ordering_or_unregistered_witness :
    verify_version_in_db [("foo", ⟨"1.0.0", 0⟩)] "foo"
      (.ok [((⟨.relaxed, ⟨"1.0.0", 0⟩⟩ : SchemedVersion), "aaaa"),
            ((⟨.relaxed, ⟨"0.9.0", 0⟩⟩ : SchemedVersion), "bbbb")])
      (.ok ⟨.relaxed, ⟨"0.9.0", 0⟩⟩) "cccc" false (fun _ => none) (fun _ _ _ => .error "")
      = .error (.orderingError ⟨"0.9.0", 0⟩)
    ∧ verify_version_in_db [("foo", ⟨"1.0.0", 0⟩)] "foo"
      (.ok [((⟨.relaxed, ⟨"1.0.0", 0⟩⟩ : SchemedVersion), "aaaa")])
      (.ok ⟨.relaxed, ⟨"2.0.0", 0⟩⟩) "cccc" false (fun _ => none) (fun _ _ _ => .error "")
      = .error (.unregisteredVersion ⟨"2.0.0", 0⟩) := by
  constructor
  · exact (checker_step4_ordering_or_unregistered [("foo", ⟨"1.0.0", 0⟩)] "foo"
      (⟨.relaxed, ⟨"1.0.0", 0⟩⟩, "aaaa") [(⟨.relaxed, ⟨"0.9.0", 0⟩⟩, "bbbb")]
      ⟨.relaxed, ⟨"0.9.0", 0⟩⟩ "cccc" (fun _ => none) (fun _ _ _ => .error "")
      (by decide)).1 (by decide)
  · exact (checker_step4_ordering_or_unregistered [("foo", ⟨"1.0.0", 0⟩)] "foo"
      (⟨.relaxed, ⟨"1.0.0", 0⟩⟩, "aaaa") [] ⟨.relaxed, ⟨"2.0.0", 0⟩⟩ "cccc"
      (fun _ => none) (fun _ _ _ => .error "")
      (by decide)).2.1 (by decide)

/-- C6 counterexample: a ledger whose two entries share the version text
"1.0.0" under different schemes, yet the checker succeeds on it and
reports no scheme conflict. -/
theorem scheme_conflict_claim_counterexample :
    ((⟨.relaxed, ⟨"1.0.0", 0⟩⟩ : SchemedVersion).versiont.text
        = (⟨.semver, ⟨"1.0.0", 0⟩⟩ : SchemedVersion).versiont.text
      ∧ (⟨.relaxed, ⟨"1.0.0", 0⟩⟩ : SchemedVersion).scheme
        ≠ (⟨.semver, ⟨"1.0.0", 0⟩⟩ : SchemedVersion).scheme)
    ∧ verify_version_in_db [("foo", ⟨"1.0.0", 0⟩)] "foo"
        (.ok [((⟨.relaxed, ⟨"1.0.0", 0⟩⟩ : SchemedVersion), "aaaa"),
              ((⟨.semver, ⟨"1.0.0", 0⟩⟩ : SchemedVersion), "bbbb")])
        (.ok ⟨.relaxed, ⟨"1.0.0", 0⟩⟩) "aaaa" false (fun _ => none) (fun _ _ _ => .error "")
      = .ok ("aaaa", "foo", ⟨"1.0.0", 0⟩) :=
  ⟨⟨rfl, by decide⟩, rfl⟩

/-- C6 amended: the checker reports a scheme conflict precisely on the path
where the top entry's version equals the local manifest's version but the
schemes differ; duplicate version texts among ledger entries are not
themselves inspected. -/
theorem scheme_conflict_on_local_vs_top (baseline : List (String × VersionT))
    (port_name : String) (top_entry : VersionGitTree) (rest : List VersionGitTree)
    (local_port_version : SchemedVersion) (local_git_tree : String)
    (git_show : String → Option String)
    (tlpt : String → String → Bool → Except String SchemedVersion)
    (heq : top_entry.1.versiont = local_port_version.versiont)
    (hsch : top_entry.1.scheme ≠ local_port_version.scheme) :
    verify_version_in_db baseline port_name (.ok (top_entry :: rest))
        (.ok local_port_version) local_git_tree false git_show tlpt
      = .error (.schemeConflict top_entry.1.versiont
          (get_scheme_name top_entry.1.scheme) (get_scheme_name local_port_version.scheme)) := by
  simp [verify_version_in_db, heq, hsch]

/-- C6 amended witness: the same version text under two schemes on the
top-entry-vs-local path yields the scheme conflict. -/
theorem scheme_conflict_on_local_vs_top_witness :
    verify_version_in_db [] "foo"
      (.ok [((⟨.semver, ⟨"1.0.0", 0⟩⟩ : SchemedVersion), "aaaa")])
      (.ok ⟨.relaxed, ⟨"1.0.0", 0⟩⟩) "aaaa" false (fun _ => none) (fun _ _ _ => .error "")
      = .error (.schemeConflict ⟨"1.0.0", 0⟩ "version-semver" "version") :=
  scheme_conflict_on_local_vs_top [] "foo" (⟨.semver, ⟨"1.0.0", 0⟩⟩, "aaaa") []
    ⟨.relaxed, ⟨"1.0.0", 0⟩⟩ "aaaa" (fun _ => none) (fun _ _ _ => .error "")
    rfl (by decide)

/-- C5 counterexample: during deep verification a ledger entry whose
reconstructed manifest declares the same version under a different scheme
passes, and the whole verification succeeds: the scheme is not compared. -/
theorem content_scheme_mismatch_not_detected :
    ((⟨.semver, ⟨"1.0.0", 0⟩⟩ : SchemedVersion).scheme
        ≠ (⟨.relaxed, ⟨"1.0.0", 0⟩⟩ : SchemedVersion).scheme)
    ∧ verify_version_in_db [("foo", ⟨"1.0.0", 0⟩)] "foo"
        (.ok [((⟨.semver, ⟨"1.0.0", 0⟩⟩ : SchemedVersion), "aaaa")])
        (.ok ⟨.semver, ⟨"1.0.0", 0⟩⟩) "aaaa" true
        (fun t => if t = "aaaa" ++ ":" ++ "CONTROL" then some "manifest-text" else none)
        (fun _ _ _ => .ok ⟨.relaxed, ⟨"1.0.0", 0⟩⟩)
      = .ok ("aaaa", "foo", ⟨"1.0.0", 0⟩) :=
  ⟨by decide, rfl⟩

theorem verify_git_trees_loop_append_error (git_show : String → Option String)
    (tlpt : String → String → Bool → Except String SchemedVersion)
    (pre post : List VersionGitTree) (entry : VersionGitTree) (err : VerifyError)
    (hpre : verify_git_trees_loop git_show tlpt pre = .ok ())
    (hentry : verify_entry_git_tree git_show tlpt entry = .error err) :
    verify_git_trees_loop git_show tlpt (pre ++ entry :: post) = .error err := by
  induction pre with
  | nil => simp [verify_git_trees_loop, hentry]
  | cons e rest ih =>
    simp only [List.cons_append, verify_git_trees_loop] at hpre ⊢
    cases h : verify_entry_git_tree git_show tlpt e with
    | error e2 => simp [h] at hpre
    | ok u =>
      cases u
      simp only [h] at hpre ⊢
      exact ih hpre

/-- C5 amended: during deep verification, the manifest reconstructed from
each entry's content id must declare a version (text and port revision)
equal to the entry's recorded version; the scheme is not compared. A
version disagreement on the first filename that resolves yields the
content/record mismatch error, which aborts verification of the package. -/
theorem content_version_mismatch_aborts (baseline : List (String × VersionT))
    (port_name : String) (pre post : List VersionGitTree) (entry : VersionGitTree)
    (maybe_local_port : Except String SchemedVersion) (local_git_tree : String)
    (git_show : String → Option String)
    (tlpt : String → String → Bool → Except String SchemedVersion)
    (gtv : SchemedVersion)
    (hpre : verify_git_trees_loop git_show tlpt pre = .ok ())
    (hresolve :
      (∃ file, git_show (entry.2 ++ ":" ++ "CONTROL") = some file
        ∧ tlpt file (entry.2 ++ ":" ++ "CONTROL") false = .ok gtv)
      ∨ (git_show (entry.2 ++ ":" ++ "CONTROL") = none
        ∧ ∃ file, git_show (entry.2 ++ ":" ++ "vcpkg.json") = some file
        ∧ tlpt file (entry.2 ++ ":" ++ "vcpkg.json") true = .ok gtv))
    (hne : entry.1.versiont ≠ gtv.versiont) :
    verify_version_in_db baseline port_name (.ok (pre ++ entry :: post)) maybe_local_port
        local_git_tree true git_show tlpt
      = .error (.contentVersionMismatch entry.1.versiont gtv.versiont entry.2) := by
  have hd1 : decide (("CONTROL" : String) = "vcpkg.json") = false := by decide
  have hd2 : decide (("vcpkg.json" : String) = "vcpkg.json") = true := by decide
  have hentry : verify_entry_git_tree git_show tlpt entry
      = .error (.contentVersionMismatch entry.1.versiont gtv.versiont entry.2) := by
    rcases hresolve with ⟨file, hg, ht⟩ | ⟨hgnone, file, hg, ht⟩
    · simp [verify_entry_git_tree, check_entry_files, hg, hd1, ht, hne]
    · simp [verify_entry_git_tree, check_entry_files, hgnone, hg, hd2, ht, hne]
  have hloop := verify_git_trees_loop_append_error git_show tlpt pre post entry
    (.contentVersionMismatch entry.1.versiont gtv.versiont entry.2) hpre hentry
  cases hl : pre ++ entry :: post with
  | nil => simp at hl
  | cons top_entry rest2 =>
    rw [hl] at hloop
    simp [verify_version_in_db, hloop]

/-- C5 amended witness: a recorded version `1.0.0` against reconstructed
content declaring `2.0.0` aborts with the mismatch error. -/
theorem content_version_mismatch_aborts_witness :
    verify_version_in_db [] "foo"
      (.ok [((⟨.relaxed, ⟨"1.0.0", 0⟩⟩ : SchemedVersion), "aaaa")])
      (.ok ⟨.relaxed, ⟨"1.0.0", 0⟩⟩) "aaaa" true
      (fun _ => some "manifest-text") (fun _ _ _ => .ok ⟨.relaxed, ⟨"2.0.0", 0⟩⟩)
      = .error (.contentVersionMismatch ⟨"1.0.0", 0⟩ ⟨"2.0.0", 0⟩ "aaaa") :=
  content_version_mismatch_aborts [] "foo" [] [] (⟨.relaxed, ⟨"1.0.0", 0⟩⟩, "aaaa")
    (.ok ⟨.relaxed, ⟨"1.0.0", 0⟩⟩) "aaaa" (fun _ => some "manifest-text")
    (fun _ _ _ => .ok ⟨.relaxed, ⟨"2.0.0", 0⟩⟩) ⟨.relaxed, ⟨"2.0.0", 0⟩⟩
    rfl (.inl ⟨"manifest-text", rfl, rfl⟩) (by decide)

theorem findSameSha_eq_none (l : List VersionGitTree) (git_tree : String)
    (h : ∀ e ∈ l, e.2 ≠ git_tree) : findSameSha l git_tree = none := by
  induction l with
  | nil => rfl
  | cons e rest ih =>
    have he : e.2 ≠ git_tree := h e (by simp)
    simp only [findSameSha, he, if_false]
    exact ih (fun x hx => h x (by simp [hx]))

theorem findSameSha_isSome_of_mem (l : List VersionGitTree) (git_tree : String)
    (h : ∃ e ∈ l, e.2 = git_tree) : ∃ found, findSameSha l git_tree = some found := by
  induction l with
  | nil => simp at h
  | cons e rest ih =>
    by_cases he : e.2 = git_tree
    · exact ⟨e, by simp [findSameSha, he]⟩
    · obtain ⟨x, hx, hxg⟩ := h
      rcases List.mem_cons.mp hx with hxe | hxe
      · exact absurd (hxe ▸ hxg) he
      · obtain ⟨found, hfr⟩ := ih ⟨x, hxe, hxg⟩
        exact ⟨found, by simp [findSameSha, he, hfr]⟩

theorem hasSameVersion_eq_false (l : List VersionGitTree) (v : VersionT)
    (h : ∀ e ∈ l, e.1.versiont ≠ v) : hasSameVersion l v = false := by
  induction l with
  | nil => rfl
  | cons e rest ih =>
    simp only [hasSameVersion, h e (by simp), decide_eq_false, Bool.false_or]
    exact ih (fun x hx => h x (by simp [hx]))

theorem hasSameVersion_of_mem (l : List VersionGitTree) (v : VersionT) (e : VersionGitTree)
    (hmem : e ∈ l) (hv : e.1.versiont = v) : hasSameVersion l v = true := by
  induction l with
  | nil => simp at hmem
  | cons x rest ih =>
    rcases List.mem_cons.mp hmem with hx | hx
    · subst hx
      simp [hasSameVersion, hv]
    · simp [hasSameVersion, ih hx]

theorem replaceFirstVersion_append (version : SchemedVersion) (git_tree : String)
    (pre post : List VersionGitTree) (found : VersionGitTree)
    (hpre : ∀ e ∈ pre, e.1.versiont ≠ version.versiont)
    (hfound : found.1.versiont = version.versiont) :
    replaceFirstVersion version git_tree (pre ++ found :: post)
      = pre ++ (version, git_tree) :: post := by
  induction pre with
  | nil => simp [replaceFirstVersion, hfound]
  | cons e rest ih =>
    have he : e.1.versiont ≠ version.versiont := hpre e (by simp)
    simp only [List.cons_append, replaceFirstVersion, he, if_false, List.cons.injEq, true_and]
    exact ih (fun x hx => hpre x (by simp [hx]))

theorem findSameSha_replaceFirstVersion (l : List VersionGitTree) (version : SchemedVersion)
    (git_tree : String) (hnone : findSameSha l git_tree = none)
    (hhas : hasSameVersion l version.versiont = true) :
    findSameSha (replaceFirstVersion version git_tree l) git_tree
      = some (version, git_tree) := by
  induction l with
  | nil => simp [hasSameVersion] at hhas
  | cons e rest ih =>
    have he : e.2 ≠ git_tree := by
      intro hc
      simp [findSameSha, hc] at hnone
    have hrest : findSameSha rest git_tree = none := by
      simpa [findSameSha, he] using hnone
    by_cases hv : e.1.versiont = version.versiont
    · simp [replaceFirstVersion, hv, findSameSha]
    · have hhr : hasSameVersion rest version.versiont = true := by
        simpa [hasSameVersion, hv] using hhas
      simp only [replaceFirstVersion, hv, if_false, findSameSha, he]
      exact ih hrest hhr

theorem run_updater_noop (port_name : String) (version : SchemedVersion) (git_tree : String)
    (overwrite_version keep_going : Bool) (st : RegistryState)
    (h : NoOpReady port_name version git_tree st) :
    run_updater port_name version git_tree overwrite_version keep_going st
      = (st, .alreadyUpToDate) := by
  obtain ⟨⟨l, found, hl, hf, hv⟩, hb⟩ := h
  have hout : update_version_db_file true (.ok l) version git_tree overwrite_version keep_going
      = { result := .alreadyUpToDate, written_ledger := none, fatal_exit := false } := by
    simp [update_version_db_file, hf, hv]
  simp [run_updater, hl, hout, update_baseline_version, hb]
  rw [← hl]

theorem run_updater_post (port_name : String) (version : SchemedVersion) (git_tree : String)
    (overwrite_version keep_going : Bool) (st : RegistryState) :
    (run_updater port_name version git_tree overwrite_version keep_going st).1 = st
    ∨ NoOpReady port_name version git_tree
        (run_updater port_name version git_tree overwrite_version keep_going st).1 := by
  cases hl : st.ledger with
  | none =>
    right
    have hrun : run_updater port_name version git_tree overwrite_version keep_going st
        = ({ ledger := some [(version, git_tree)],
             baseline := (update_baseline_version port_name version.versiont
               st.baseline).baseline_map }, .createdNewFile) := by
      simp [run_updater, hl, update_version_db_file]
    rw [hrun]
    exact ⟨⟨[(version, git_tree)], (version, git_tree), rfl, by simp [findSameSha], rfl⟩,
      lookupBaseline_after_update _ _ _⟩
  | some l =>
    cases hf : findSameSha l git_tree with
    | some found =>
      by_cases hv : found.1.versiont = version.versiont
      · right
        have hrun : run_updater port_name version git_tree overwrite_version keep_going st
            = ({ ledger := some l,
                 baseline := (update_baseline_version port_name version.versiont
                   st.baseline).baseline_map }, .alreadyUpToDate) := by
          simp [run_updater, hl, update_version_db_file, hf, hv]
        rw [hrun]
        exact ⟨⟨l, found, rfl, hf, hv⟩, lookupBaseline_after_update _ _ _⟩
      · left
        have hrun : run_updater port_name version git_tree overwrite_version keep_going st
            = (st, .uncommittedChange found.1.versiont) := by
          simp [run_updater, hl, update_version_db_file, hf, hv]
        rw [hrun]
    | none =>
      by_cases hh : hasSameVersion l version.versiont = true
      · cases overwrite_version with
        | false =>
          left
          have hrun : run_updater port_name version git_tree false keep_going st
              = (st, .missingVersionBump) := by
            simp [run_updater, hl, update_version_db_file, hf, hh]
          rw [hrun]
        | true =>
          right
          have hrun : run_updater port_name version git_tree true keep_going st
              = ({ ledger := some (replaceFirstVersion version git_tree l),
                   baseline := (update_baseline_version port_name version.versiont
                     st.baseline).baseline_map }, .wroteUpdatedFile) := by
            simp [run_updater, hl, update_version_db_file, hf, hh]
          rw [hrun]
          exact ⟨⟨replaceFirstVersion version git_tree l, (version, git_tree), rfl,
            findSameSha_replaceFirstVersion l version git_tree hf hh, rfl⟩,
            lookupBaseline_after_update _ _ _⟩
      · right
        have hh2 : hasSameVersion l version.versiont = false := by
          simpa using hh
        have hrun : run_updater port_name version git_tree overwrite_version keep_going st
            = ({ ledger := some ((version, git_tree) :: l),
                 baseline := (update_baseline_version port_name version.versiont
                   st.baseline).baseline_map }, .wroteUpdatedFile) := by
          simp [run_updater, hl, update_version_db_file, hf, hh2]
        rw [hrun]
        exact ⟨⟨(version, git_tree) :: l, (version, git_tree), rfl, by simp [findSameSha], rfl⟩,
          lookupBaseline_after_update _ _ _⟩

/-- C2 counterexample: a ledger that does contain an entry whose content id
equals the current one under a different version, yet the updater (because
the first entry with that content id carries the desired version) reports
no uncommitted-change error and no-ops, even with `overwrite` set. -/
theorem uncommitted_change_claim_counterexample :
    (((⟨.relaxed, ⟨"1.1.0", 0⟩⟩ : SchemedVersion), ("aaaa" : String))
        ∈ [((⟨.relaxed, ⟨"1.0.0", 0⟩⟩ : SchemedVersion), ("aaaa" : String)),
           ((⟨.relaxed, ⟨"1.1.0", 0⟩⟩ : SchemedVersion), ("aaaa" : String))]
      ∧ (⟨"1.1.0", 0⟩ : VersionT) ≠ ⟨"1.0.0", 0⟩)
    ∧ update_version_db_file true
        (.ok [((⟨.relaxed, ⟨"1.0.0", 0⟩⟩ : SchemedVersion), "aaaa"),
              ((⟨.relaxed, ⟨"1.1.0", 0⟩⟩ : SchemedVersion), "aaaa")])
        ⟨.relaxed, ⟨"1.0.0", 0⟩⟩ "aaaa" true false
      = { result := .alreadyUpToDate, written_ledger := none, fatal_exit := false } :=
  ⟨⟨by decide, by decide⟩, rfl⟩

/-- C2 amended: when the first ledger entry whose content id equals the
current content id records a version different from the desired one, the
updater reports the uncommitted-change warning and mutates neither the
ledger nor the baseline, regardless of `overwrite`; `keep_going` alone
decides whether the failure is fatal to the batch. -/
theorem uncommitted_change_no_write (port_name : String) (version : SchemedVersion)
    (git_tree : String) (overwrite_version keep_going : Bool) (st : RegistryState)
    (l : List VersionGitTree) (found : VersionGitTree)
    (hl : st.ledger = some l)
    (hfound : findSameSha l git_tree = some found)
    (hne : found.1.versiont ≠ version.versiont) :
    run_updater port_name version git_tree overwrite_version keep_going st
      = (st, .uncommittedChange found.1.versiont)
    ∧ (update_version_db_file true (.ok l) version git_tree overwrite_version
        keep_going).written_ledger = none
    ∧ (update_version_db_file true (.ok l) version git_tree overwrite_version
        keep_going).fatal_exit = !keep_going := by
  have hout : update_version_db_file true (.ok l) version git_tree overwrite_version keep_going
      = { result := .uncommittedChange found.1.versiont, written_ledger := none,
          fatal_exit := !keep_going } := by
    simp [update_version_db_file, hfound, hne]
  refine ⟨?_, by rw [hout], by rw [hout]⟩
  simp [run_updater, hl, hout]

/-- C2 amended witness: a same-content entry under version `1.0.0` with the
desired version `1.1.0` leaves the state untouched even with `overwrite`
set, and is non-fatal exactly under `keep_going`. -/
theorem uncommitted_change_no_write_witness :
    run_updater "foo" ⟨.relaxed, ⟨"1.1.0", 0⟩⟩ "aaaa" true true
        ⟨some [(⟨.relaxed, ⟨"1.0.0", 0⟩⟩, "aaaa")], [("foo", ⟨"1.0.0", 0⟩)]⟩
      = (⟨some [(⟨.relaxed, ⟨"1.0.0", 0⟩⟩, "aaaa")], [("foo", ⟨"1.0.0", 0⟩)]⟩,
         .uncommittedChange ⟨"1.0.0", 0⟩)
    ∧ (update_version_db_file true (.ok [(⟨.relaxed, ⟨"1.0.0", 0⟩⟩, "aaaa")])
        ⟨.relaxed, ⟨"1.1.0", 0⟩⟩ "aaaa" true true).written_ledger = none
    ∧ (update_version_db_file true (.ok [(⟨.relaxed, ⟨"1.0.0", 0⟩⟩, "aaaa")])
        ⟨.relaxed, ⟨"1.1.0", 0⟩⟩ "aaaa" true true).fatal_exit = !true :=
  uncommitted_change_no_write "foo" ⟨.relaxed, ⟨"1.1.0", 0⟩⟩ "aaaa" true true
    ⟨some [(⟨.relaxed, ⟨"1.0.0", 0⟩⟩, "aaaa")], [("foo", ⟨"1.0.0", 0⟩)]⟩
    [(⟨.relaxed, ⟨"1.0.0", 0⟩⟩, "aaaa")] (⟨.relaxed, ⟨"1.0.0", 0⟩⟩, "aaaa")
    rfl rfl (by decide)

/-- C3: when the ledger contains an entry recording the current content id
under the desired version, `update_version_db_file` writes nothing; and
running the per-package updater twice in succession with unchanged inputs
leaves ledger and baseline exactly as they were after the first run. -/
theorem updater_idempotent (port_name : String) (version : SchemedVersion) (git_tree : String)
    (overwrite_version keep_going : Bool) (st : RegistryState) (l : List VersionGitTree)
    (hl : st.ledger = some l)
    (hmem : ∃ e ∈ l, e.2 = git_tree ∧ e.1.versiont = version.versiont) :
    (update_version_db_file true (.ok l) version git_tree overwrite_version
        keep_going).written_ledger = none
    ∧ (run_updater port_name version git_tree overwrite_version keep_going
        (run_updater port_name version git_tree overwrite_version keep_going st).1).1
      = (run_updater port_name version git_tree overwrite_version keep_going st).1 := by
  constructor
  · obtain ⟨found, hf⟩ := findSameSha_isSome_of_mem l git_tree
      (by obtain ⟨e, he, hg, _⟩ := hmem; exact ⟨e, he, hg⟩)
    simp only [update_version_db_file, Bool.not_true, Bool.false_eq_true, if_false, hf]
    split <;> rfl
  · rcases run_updater_post port_name version git_tree overwrite_version keep_going st
      with hpost | hpost
    · simp only [hpost]
    · rw [run_updater_noop port_name version git_tree overwrite_version keep_going _ hpost]

/-- C3 witness: re-running on a ledger whose entry already records the
desired version under the current content id writes nothing and fixes the
state. -/
theorem updater_idempotent_witness :
    (update_version_db_file true
        (.ok [((⟨.relaxed, ⟨"1.0.0", 0⟩⟩ : SchemedVersion), "aaaa")])
        ⟨.relaxed, ⟨"1.0.0", 0⟩⟩ "aaaa" false false).written_ledger = none
    ∧ (run_updater "foo" ⟨.relaxed, ⟨"1.0.0", 0⟩⟩ "aaaa" false false
        (run_updater "foo" ⟨.relaxed, ⟨"1.0.0", 0⟩⟩ "aaaa" false false
          ⟨some [(⟨.relaxed, ⟨"1.0.0", 0⟩⟩, "aaaa")], []⟩).1).1
      = (run_updater "foo" ⟨.relaxed, ⟨"1.0.0", 0⟩⟩ "aaaa" false false
          ⟨some [(⟨.relaxed, ⟨"1.0.0", 0⟩⟩, "aaaa")], []⟩).1 :=
  updater_idempotent "foo" ⟨.relaxed, ⟨"1.0.0", 0⟩⟩ "aaaa" false false
    ⟨some [(⟨.relaxed, ⟨"1.0.0", 0⟩⟩, "aaaa")], []⟩ [(⟨.relaxed, ⟨"1.0.0", 0⟩⟩, "aaaa")]
    rfl (by decide)

/-- C4: with no content-id match in the ledger: an existing equal-version
entry means a missing-version-bump error and no write unless `overwrite`
is set, in which case exactly that entry's schemed version and content id
are replaced in place, every other entry and every position unchanged;
with no equal-version entry the new entry is prepended at position 0. -/
theorem updater_overwrite_in_place (version : SchemedVersion) (git_tree : String)
    (keep_going : Bool) (l pre post : List VersionGitTree) (found : VersionGitTree)
    (hsha : ∀ e ∈ l, e.2 ≠ git_tree) :
    ((l = pre ++ found :: post ∧ (∀ e ∈ pre, e.1.versiont ≠ version.versiont)
        ∧ found.1.versiont = version.versiont) →
      update_version_db_file true (.ok l) version git_tree false keep_going
        = { result := .missingVersionBump, written_ledger := none, fatal_exit := !keep_going }
      ∧ update_version_db_file true (.ok l) version git_tree true keep_going
        = { result := .wroteUpdatedFile,
            written_ledger := some (pre ++ (version, git_tree) :: post), fatal_exit := false })
    ∧ ((∀ e ∈ l, e.1.versiont ≠ version.versiont) →
      ∀ overwrite_version : Bool,
      update_version_db_file true (.ok l) version git_tree overwrite_version keep_going
        = { result := .wroteUpdatedFile, written_ledger := some ((version, git_tree) :: l),
            fatal_exit := false }) := by
  have hnone : findSameSha l git_tree = none := findSameSha_eq_none l git_tree hsha
  constructor
  · rintro ⟨hdecomp, hpre, hfound⟩
    have hhas : hasSameVersion l version.versiont = true := by
      subst hdecomp
      exact hasSameVersion_of_mem _ _ found (by simp) hfound
    have hrepl : replaceFirstVersion version git_tree l = pre ++ (version, git_tree) :: post := by
      subst hdecomp
      exact replaceFirstVersion_append version git_tree pre post found hpre hfound
    constructor
    · simp [update_version_db_file, hnone, hhas]
    · simp [update_version_db_file, hnone, hhas, hrepl]
  · intro hnov overwrite_version
    have hhas : hasSameVersion l version.versiont = false :=
      hasSameVersion_eq_false l version.versiont hnov
    simp [update_version_db_file, hnone, hhas]

/-- C4 witness: concrete replace-in-place under `overwrite`, concrete
missing-version-bump error without it, and concrete prepend when the
desired version is absent. -/
theorem updater_overwrite_in_place_witness :
    update_version_db_file true (.ok [(⟨.relaxed, ⟨"1.0.0", 0⟩⟩, "bbbb")])
        ⟨.relaxed, ⟨"1.0.0", 0⟩⟩ "aaaa" false false
      = { result := .missingVersionBump, written_ledger := none, fatal_exit := !false }
    ∧ update_version_db_file true (.ok [(⟨.relaxed, ⟨"1.0.0", 0⟩⟩, "bbbb")])
        ⟨.relaxed, ⟨"1.0.0", 0⟩⟩ "aaaa" true false
      = { result := .wroteUpdatedFile,
          written_ledger := some [(⟨.relaxed, ⟨"1.0.0", 0⟩⟩, "aaaa")], fatal_exit := false }
    ∧ update_version_db_file true (.ok [(⟨.relaxed, ⟨"1.0.0", 0⟩⟩, "bbbb")])
        ⟨.relaxed, ⟨"2.0.0", 0⟩⟩ "aaaa" false false
      = { result := .wroteUpdatedFile,
          written_ledger := some [(⟨.relaxed, ⟨"2.0.0", 0⟩⟩, "aaaa"),
            (⟨.relaxed, ⟨"1.0.0", 0⟩⟩, "bbbb")], fatal_exit := false } := by
  refine ⟨?_, ?_, ?_⟩
  · exact ((updater_overwrite_in_place ⟨.relaxed, ⟨"1.0.0", 0⟩⟩ "aaaa" false
      [(⟨.relaxed, ⟨"1.0.0", 0⟩⟩, "bbbb")] [] [] (⟨.relaxed, ⟨"1.0.0", 0⟩⟩, "bbbb")
      (by decide)).1 ⟨rfl, by decide, rfl⟩).1
  · exact ((updater_overwrite_in_place ⟨.relaxed, ⟨"1.0.0", 0⟩⟩ "aaaa" false
      [(⟨.relaxed, ⟨"1.0.0", 0⟩⟩, "bbbb")] [] [] (⟨.relaxed, ⟨"1.0.0", 0⟩⟩, "bbbb")
      (by decide)).1 ⟨rfl, by decide, rfl⟩).2
  · exact (updater_overwrite_in_place ⟨.relaxed, ⟨"2.0.0", 0⟩⟩ "aaaa" false
      [(⟨.relaxed, ⟨"1.0.0", 0⟩⟩, "bbbb")] [] [] (⟨.relaxed, ⟨"1.0.0", 0⟩⟩, "bbbb")
      (by decide)).2 (by decide) false

/-- C10: all three searches compare full versions structurally (text and
port revision together): the checker's step-4 search treats a local
version that differs from every recorded version only in port revision as
unregistered; the updater's same-content search still reports the found
entry's version as a different version when only the revision differs; and
the updater's same-version search misses a text-equal but
revision-different entry and prepends a new entry. -/
theorem version_equality_is_structural :
    (∀ (baseline : List (String × VersionT)) (port_name : String)
        (top_entry : VersionGitTree) (rest : List VersionGitTree)
        (local_port_version : SchemedVersion) (local_git_tree : String)
        (git_show : String → Option String)
        (tlpt : String → String → Bool → Except String SchemedVersion),
      top_entry.1.versiont.text = local_port_version.versiont.text →
      top_entry.1.versiont.port_version ≠ local_port_version.versiont.port_version →
      findVersionInLedger local_port_version.versiont (top_entry :: rest) = false →
      verify_version_in_db baseline port_name (.ok (top_entry :: rest))
          (.ok local_port_version) local_git_tree false git_show tlpt
        = .error (.unregisteredVersion local_port_version.versiont))
    ∧ (∀ (l : List VersionGitTree) (version : SchemedVersion) (git_tree : String)
        (found : VersionGitTree) (overwrite_version keep_going : Bool),
      findSameSha l git_tree = some found →
      found.1.versiont.text = version.versiont.text →
      found.1.versiont.port_version ≠ version.versiont.port_version →
      (update_version_db_file true (.ok l) version git_tree overwrite_version
          keep_going).result = .uncommittedChange found.1.versiont)
    ∧ (∀ (l : List VersionGitTree) (version : SchemedVersion) (git_tree : String)
        (e : VersionGitTree) (overwrite_version keep_going : Bool),
      findSameSha l git_tree = none →
      e ∈ l → e.1.versiont.text = version.versiont.text →
      hasSameVersion l version.versiont = false →
      (update_version_db_file true (.ok l) version git_tree overwrite_version
          keep_going).written_ledger = some ((version, git_tree) :: l)) := by
  refine ⟨?_, ?_, ?_⟩
  · intro baseline port_name top_entry rest local_port_version local_git_tree git_show tlpt
      _ hrev hnone
    have hne : top_entry.1.versiont ≠ local_port_version.versiont := by
      intro hc
      exact hrev (congrArg VersionT.port_version hc)
    simp [verify_version_in_db, hne, hnone]
  · intro l version git_tree found overwrite_version keep_going hfound _ hrev
    have hne : found.1.versiont ≠ version.versiont := by
      intro hc
      exact hrev (congrArg VersionT.port_version hc)
    simp [update_version_db_file, hfound, hne]
  · intro l version git_tree e overwrite_version keep_going hsha _ _ hvnone
    simp [update_version_db_file, hsha, hvnone]

/-- C10 witness: local version `1.0.0` with port revision 1 against a
ledger recording `1.0.0` with revision 0 is unregistered; the same-content
search flags it as a different version; the same-version search misses it
and prepends. -/
theorem version_equality_is_structural_witness :
    verify_version_in_db [] "foo"
      (.ok [((⟨.relaxed, ⟨"1.0.0", 0⟩⟩ : SchemedVersion), "aaaa")])
      (.ok ⟨.relaxed, ⟨"1.0.0", 1⟩⟩) "aaaa" false (fun _ => none) (fun _ _ _ => .error "")
      = .error (.unregisteredVersion ⟨"1.0.0", 1⟩)
    ∧ (update_version_db_file true (.ok [(⟨.relaxed, ⟨"1.0.0", 0⟩⟩, "aaaa")])
        ⟨.relaxed, ⟨"1.0.0", 1⟩⟩ "aaaa" false false).result
      = .uncommittedChange ⟨"1.0.0", 0⟩
    ∧ (update_version_db_file true (.ok [(⟨.relaxed, ⟨"1.0.0", 0⟩⟩, "bbbb")])
        ⟨.relaxed, ⟨"1.0.0", 1⟩⟩ "aaaa" false false).written_ledger
      = some [(⟨.relaxed, ⟨"1.0.0", 1⟩⟩, "aaaa"), (⟨.relaxed, ⟨"1.0.0", 0⟩⟩, "bbbb")] := by
  refine ⟨?_, ?_, ?_⟩
  · exact version_equality_is_structural.1 [] "foo" (⟨.relaxed, ⟨"1.0.0", 0⟩⟩, "aaaa") []
      ⟨.relaxed, ⟨"1.0.0", 1⟩⟩ "aaaa" (fun _ => none) (fun _ _ _ => .error "")
      rfl (by decide) (by decide)
  · exact version_equality_is_structural.2.1 [(⟨.relaxed, ⟨"1.0.0", 0⟩⟩, "aaaa")]
      ⟨.relaxed, ⟨"1.0.0", 1⟩⟩ "aaaa" (⟨.relaxed, ⟨"1.0.0", 0⟩⟩, "aaaa") false false
      rfl rfl (by decide)
  · exact version_equality_is_structural.2.2 [(⟨.relaxed, ⟨"1.0.0", 0⟩⟩, "bbbb")]
      ⟨.relaxed, ⟨"1.0.0", 1⟩⟩ "aaaa" (⟨.relaxed, ⟨"1.0.0", 0⟩⟩, "bbbb") false false
      rfl (by decide) rfl (by decide)

end Vcpkg
